import Mathlib

/-!
# Rate Conversion Engine — formal model

Shallow embedding of the rate-conversion program (`src/main.py`): the period
table `PERIODOS`, the code taxonomy `VALIDOS`, the parsers `parse_codigo` and
`parse_tasa`, the conversion pipeline `a_EA` / `desde_EA` / `convertir`, and
the formatting helper `a_porcentaje`.

Modelling conventions:
* Python `str` is modelled as Lean `String` (a list of characters); the
  case-mapping functions `str.upper` / `str.lower` are modelled by their
  ASCII behaviour (`Char.toUpper` / `Char.toLower`), which is exact for the
  ASCII inputs the taxonomy deals with.
* Python `float` arithmetic is idealised as real-number arithmetic (`ℝ`);
  literal parsing is idealised as exact rational parsing, with the special
  IEEE values `inf` / `-inf` / `nan` kept as explicit constructors.
* Exceptions are modelled by `Except`; a Python `dict` lookup is an
  association-list lookup returning `Option`.
-/

deriving instance DecidableEq for Except

namespace Conversor

/-! ## Python string primitives (ASCII model) -/

/-- Characters removed by Python `str.strip()` (ASCII whitespace). -/
def isPySpace (c : Char) : Bool :=
  c = ' ' || c = '\t' || c = '\n' || c = '\r' || c.toNat = 11 || c.toNat = 12

/-- Model of `str.strip()` on the underlying character list. -/
def stripList (l : List Char) : List Char :=
  ((l.dropWhile isPySpace).reverse.dropWhile isPySpace).reverse

/-- Python `s.strip()`. -/
def pyStrip (s : String) : String := ⟨stripList s.data⟩

/-- Python `s.upper()` (ASCII model). -/
def pyUpper (s : String) : String := ⟨s.data.map Char.toUpper⟩

/-- Python `s.lower()` (ASCII model). -/
def pyLower (s : String) : String := ⟨s.data.map Char.toLower⟩

/-- Python `s.replace(",", ".")`. -/
def pyReplaceComma (s : String) : String :=
  ⟨s.data.map (fun c => if c = ',' then '.' else c)⟩

/-! ## Static tables (`PERIODOS`, `VALIDOS`) -/

/-- Table `PERIODOS`: compounding frequency per year for each period code. -/
def PERIODOS : List (String × Nat) :=
  [("A", 1), ("S", 2), ("T", 4), ("B", 6), ("Q", 24), ("M", 12),
   ("SM", 52), ("D", 365)]

/-- Taxonomy `VALIDOS`: maps rate codes to (kind, period) pairs. -/
def VALIDOS : List (String × String × String) :=
  [("EA", ("E", "A")), ("ES", ("E", "S")), ("ET", ("E", "T")),
   ("EQ", ("E", "Q")), ("EB", ("E", "B")), ("EM", ("E", "M")),
   ("ESM", ("E", "SM")), ("ED", ("E", "D")),
   ("NA", ("N", "A")), ("NS", ("N", "S")), ("NT", ("N", "T")),
   ("NQ", ("N", "Q")), ("NM", ("N", "M")), ("NSM", ("N", "SM")),
   ("ND", ("N", "D")), ("NB", ("N", "B"))]

/-- Association-list lookup, the model of a Python `dict` access. -/
def buscar {α : Type} (k : String) : List (String × α) → Option α
  | [] => none
  | (k', v) :: rest => if k = k' then some v else buscar k rest

/-- Lexicographic `≤` on character lists by code point, the ordering
Python uses to compare strings. -/
def listLe : List Char → List Char → Bool
  | [], _ => true
  | _ :: _, [] => false
  | c :: cs, d :: ds =>
    if c.toNat < d.toNat then true
    else if d.toNat < c.toNat then false
    else listLe cs ds

/-- Lexicographic `≤` on strings by code point. -/
def strLe (a b : String) : Bool := listLe a.data b.data

/-- Insert a string into an ascending list, keeping it sorted. -/
def insertSorted (x : String) : List String → List String
  | [] => [x]
  | y :: rest => if strLe x y then x :: y :: rest else y :: insertSorted x rest

/-- Ascending sort by repeated insertion, the model of Python `sorted`. -/
def pySorted (l : List String) : List String := l.foldr insertSorted []

/-- Model of `sorted(VALIDOS.keys())`, as interpolated into the error message. -/
def sortedCodes : List String := pySorted (VALIDOS.map (·.1))

/-! ## Errors -/

/-- Payload of the `ValueError` raised by `parse_codigo`: the message
interpolates the original argument and the sorted list of valid codes. -/
structure CodeError where
  entrada : String
  validos : List String
deriving DecidableEq

/-- Payload of the `ValueError` raised by `parse_tasa`: the message
interpolates the (rebound) string `s`. -/
structure RateError where
  entrada : String
deriving DecidableEq

/-! ## `parse_codigo` -/

/-- Function `parse_codigo`: validates a rate code and splits it into kind and
period, after stripping, uppercasing and the explicit `esm` / `nsm`
special cases. -/
def parse_codigo (codigo : String) : Except CodeError (String × String) :=
  let c0 := pyUpper (pyStrip codigo)
  let c1 := if pyLower c0 = "esm" then "ESM" else c0
  let c2 := if pyLower c1 = "nsm" then "NSM" else c1
  match buscar c2 VALIDOS with
  | some kp => .ok kp
  | none => .error ⟨codigo, sortedCodes⟩

/-! ## Python `float()` literal parsing (exact-rational model) -/

/-- Idealised Python float: exact rational for finite values, plus the
special values produced by the `inf` / `infinity` / `nan` literals. -/
inductive PyFloat where
  | finite (q : ℚ)
  | inf
  | neginf
  | nan
deriving DecidableEq

/-- Whether the idealised float is a finite value. -/
def PyFloat.isFinite : PyFloat → Bool
  | .finite _ => true
  | _ => false

/-- Division by 100, as applied to the parsed value in the `%` branch. -/
def PyFloat.div100 : PyFloat → PyFloat
  | .finite q => .finite (q / 100)
  | x => x

/-- Maximal prefix of digits and underscores. -/
def takeDigU (l : List Char) : List Char :=
  l.takeWhile (fun c => c.isDigit || c == '_')

/-- Remainder after the maximal digit/underscore prefix. -/
def dropDigU (l : List Char) : List Char :=
  l.dropWhile (fun c => c.isDigit || c == '_')

/-- Tail of a digit run: digits with single underscores between digits. -/
def okTail : List Char → Bool
  | [] => true
  | '_' :: [] => false
  | '_' :: c :: rest => c.isDigit && okTail rest
  | c :: rest => c.isDigit && okTail rest

/-- A valid CPython digit run: `digit ("_"? digit)*`. -/
def okRun (l : List Char) : Bool :=
  match l with
  | [] => false
  | c :: rest => c.isDigit && okTail rest

/-- Numeric value of a digit run (underscores skipped). -/
def digVal (l : List Char) : Nat :=
  l.foldl (fun n c => if c.isDigit then n * 10 + (c.toNat - 48) else n) 0

/-- Number of digits in a digit run (underscores skipped). -/
def digCount (l : List Char) : Nat :=
  (l.filter (fun c => c.isDigit)).length

/-- Optional leading sign of a float literal. Returns (isNegative, rest). -/
def splitSign : List Char → Bool × List Char
  | '+' :: r => (false, r)
  | '-' :: r => (true, r)
  | r => (false, r)

/-- Exponent suffix of a float literal: empty, or `[eE][+-]?digits`. -/
def parseExp (l : List Char) : Option Int :=
  match l with
  | [] => some 0
  | e :: rest =>
    if e.toLower = 'e' then
      let sb := splitSign rest
      let d := takeDigU sb.2
      if okRun d && (dropDigU sb.2).isEmpty then
        some (if sb.1 then -(digVal d : Int) else (digVal d : Int))
      else none
    else none

/-- Assemble integer part, fractional part and exponent into a rational. -/
def mkQ (ip fp fc : Nat) (ex : Int) : ℚ :=
  (((ip * 10 ^ fc + fp : ℕ) : ℚ) / 10 ^ fc) * 10 ^ ex

/-- Unsigned decimal float literal: `digits [. digits?] [exp]` or
`. digits [exp]`, with CPython underscore rules. -/
def parseDecCore (l : List Char) : Option ℚ :=
  let d1 := takeDigU l
  let r1 := dropDigU l
  if !d1.isEmpty && !okRun d1 then none
  else
    match r1 with
    | '.' :: r2 =>
      let d2 := takeDigU r2
      let r3 := dropDigU r2
      if !d2.isEmpty && !okRun d2 then none
      else if d1.isEmpty && d2.isEmpty then none
      else
        match parseExp r3 with
        | none => none
        | some ex => some (mkQ (digVal d1) (digVal d2) (digCount d2) ex)
    | _ =>
      if d1.isEmpty then none
      else
        match parseExp r1 with
        | none => none
        | some ex => some (mkQ (digVal d1) 0 0 ex)

/-- Idealised Python `float(s)` on a character list: strips whitespace,
handles an optional sign, the `inf`/`infinity`/`nan` literals, and decimal
literals with optional exponent. Returns `none` where CPython raises
`ValueError`. -/
def parseFloat (l : List Char) : Option PyFloat :=
  let sb := splitSign (stripList l)
  let low := sb.2.map Char.toLower
  if low = "inf".data || low = "infinity".data then
    some (if sb.1 then .neginf else .inf)
  else if low = "nan".data then some .nan
  else
    match parseDecCore sb.2 with
    | some q => some (.finite (if sb.1 then -q else q))
    | none => none

/-! ## `parse_tasa` -/

/-- The rebinding `s = s.strip().replace(",", ".")` at the top of
`parse_tasa`. -/
def normTasa (s : String) : String := pyReplaceComma (pyStrip s)

/-- Function `parse_tasa`: accepts `"0.24"` or `"24%"` and returns the decimal
value; on failure the error carries the rebound (normalised) string. -/
def parse_tasa (s : String) : Except RateError PyFloat :=
  let t := normTasa s
  if t.data.getLast? = some '%' then
    match parseFloat t.data.dropLast with
    | some x => .ok x.div100
    | none => .error ⟨t⟩
  else
    match parseFloat t.data with
    | some x => .ok x
    | none => .error ⟨t⟩

/-! ## The converter (real-number model of float arithmetic) -/

/-- The `Tasa` dataclass: value, kind (`"E"` or `"N"`) and period code. -/
structure Tasa where
  valor : ℝ
  tipo : String
  periodo : String

/-- The body of `a_EA` once the frequency `m` is known:
`(1 + v)^m - 1` for effective rates, `(1 + v/m)^m - 1` for nominal. -/
noncomputable def valorEA (v : ℝ) (tipo : String) (m : ℕ) : ℝ :=
  if tipo = "E" then (1 + v) ^ m - 1 else (1 + v / m) ^ m - 1

/-- The body of `desde_EA` once the frequency `m` is known:
`(1 + EA)^(1/m) - 1` for effective targets, `m * ((1 + EA)^(1/m) - 1)`
for nominal targets. The fractional power is real exponentiation. -/
noncomputable def valorDesdeEA (ea : ℝ) (tipo : String) (m : ℕ) : ℝ :=
  if tipo = "E" then (1 + ea) ^ ((1 : ℝ) / m) - 1
  else m * ((1 + ea) ^ ((1 : ℝ) / m) - 1)

/-- Function `a_EA`: converts any rate to effective annual; the `PERIODOS` lookup can
fail (Python `KeyError`), modelled by `Option`. -/
noncomputable def a_EA (t : Tasa) : Option ℝ :=
  match buscar t.periodo PERIODOS with
  | none => none
  | some m => some (valorEA t.valor t.tipo m)

/-- Function `desde_EA`: converts an effective-annual rate to the target kind and
period; the `PERIODOS` lookup can fail, modelled by `Option`. -/
noncomputable def desde_EA (ea : ℝ) (tipo periodo : String) : Option ℝ :=
  match buscar periodo PERIODOS with
  | none => none
  | some m => some (valorDesdeEA ea tipo m)

/-- Errors that can escape `convertir`: a code-validation error from
`parse_codigo`, or a `KeyError` from a `PERIODOS` lookup. -/
inductive ConvError where
  | codigo (e : CodeError)
  | periodo (p : String)
deriving DecidableEq

/-- Function `convertir`: resolves both codes, normalises to effective annual, then
derive the target representation. -/
noncomputable def convertir (valor : ℝ) (de a : String) : Except ConvError ℝ :=
  match parse_codigo de with
  | .error e => .error (.codigo e)
  | .ok (tipoOrigen, perOrigen) =>
    match parse_codigo a with
    | .error e => .error (.codigo e)
    | .ok (tipoDest, perDest) =>
      match a_EA ⟨valor, tipoOrigen, perOrigen⟩ with
      | none => .error (.periodo perOrigen)
      | some ea =>
        match desde_EA ea tipoDest perDest with
        | none => .error (.periodo perDest)
        | some r => .ok r

/-! ## Formatting -/

/-- Left-pad a numeral with zeros to 6 characters. -/
def leftPad6 (s : String) : String :=
  ⟨List.replicate (6 - s.data.length) '0' ++ s.data⟩

/-- Fixed-point rendering with 6 decimals, the model of
Python formatting with format spec `.6f`. Ties are rounded half-up in the model (Python rounds the
underlying binary double half-to-even; the two agree off ties). -/
noncomputable def fixed6 (y : ℝ) : String :=
  let n : ℤ := round (y * 1000000)
  let a : ℕ := n.natAbs
  let cuerpo := toString (a / 1000000) ++ "." ++ leftPad6 (toString (a % 1000000))
  if n < 0 then "-" ++ cuerpo else cuerpo

/-- Function `a_porcentaje`: decimal fraction to percentage text with 6 decimals. -/
noncomputable def a_porcentaje (x : ℝ) : String :=
  fixed6 (x * 100) ++ "%"

/-! ## Derived predicates used by the claims -/

/-- The trimmed token of a rate text after the `%` sign (when present) has
been removed: the exact string handed to `float()` by `parse_tasa`. -/
def tasaBody (s : String) : List Char :=
  let t := normTasa s
  if t.data.getLast? = some '%' then t.data.dropLast else t.data

/-- Whether a float literal (after stripping and an optional sign) spells
one of the special `inf` / `infinity` / `nan` tokens. -/
def specialTok (l : List Char) : Bool :=
  let low := (splitSign (stripList l)).2.map Char.toLower
  low = "inf".data || low = "infinity".data || low = "nan".data

/-- Modelled from the spec's simpler description of `resolveCode` (claim
C10): only trim whitespace, uppercase and look the token up — without the
explicit `esm` / `nsm` special cases of the source. -/
def parse_codigo_spec (codigo : String) : Except CodeError (String × String) :=
  let c := pyUpper (pyStrip codigo)
  match buscar c VALIDOS with
  | some kp => .ok kp
  | none => .error ⟨codigo, sortedCodes⟩

/-! ## Lookup and taxonomy lemmas -/

theorem buscar_mem {α : Type} {k : String} {v : α} :
    ∀ {l : List (String × α)}, buscar k l = some v → (k, v) ∈ l := by
  intro l
  induction l with
  | nil => intro h; exact absurd h (by simp [buscar])
  | cons hd tl ih =>
    intro h
    rcases hd with ⟨k', v'⟩
    by_cases hk : k = k'
    · subst hk
      simp only [buscar, eq_self_iff_true, if_true, Option.some.injEq] at h
      subst h; exact List.mem_cons_self _ _
    · simp only [buscar, if_neg hk] at h
      exact List.mem_cons_of_mem _ (ih h)

theorem validos_freq :
    ∀ kv ∈ VALIDOS, ∃ m : ℕ, buscar kv.2.2 PERIODOS = some m ∧ 1 ≤ m := by
  intro kv h
  fin_cases h <;> exact ⟨_, rfl, by norm_num⟩

theorem parse_codigo_ok_buscar {s : String} {kp : String × String}
    (h : parse_codigo s = .ok kp) : ∃ c, buscar c VALIDOS = some kp := by
  simp only [parse_codigo] at h
  split at h
  · exact ⟨_, by rename_i heq; rw [heq]; simpa using h⟩
  · simp at h

theorem parse_codigo_freq {s : String} {k p : String}
    (h : parse_codigo s = .ok (k, p)) :
    ∃ m : ℕ, buscar p PERIODOS = some m ∧ 1 ≤ m := by
  obtain ⟨c, hc⟩ := parse_codigo_ok_buscar h
  exact validos_freq (c, (k, p)) (buscar_mem hc)

/-! ## Real-power lemmas -/

theorem rpow_inv_npow {x : ℝ} (hx : 0 ≤ x) {m : ℕ} (hm : 1 ≤ m) :
    (x ^ ((1 : ℝ) / m)) ^ m = x := by
  have hm0 : (m : ℝ) ≠ 0 := Nat.cast_ne_zero.mpr (by omega)
  rw [← Real.rpow_natCast (x ^ ((1 : ℝ) / m)) m, ← Real.rpow_mul hx,
    one_div, inv_mul_cancel₀ hm0, Real.rpow_one]

theorem npow_rpow_inv {x : ℝ} (hx : 0 ≤ x) {m : ℕ} (hm : 1 ≤ m) :
    ((x ^ m : ℝ)) ^ ((1 : ℝ) / m) = x := by
  have hm0 : (m : ℝ) ≠ 0 := Nat.cast_ne_zero.mpr (by omega)
  rw [← Real.rpow_natCast x m, ← Real.rpow_mul hx, mul_one_div,
    div_self hm0, Real.rpow_one]

/-! ## Converter algebra -/

theorem one_add_div_nonneg {v : ℝ} {m : ℕ} (hm : 1 ≤ m) (hv : -1 ≤ v) :
    0 ≤ 1 + v / m := by
  have hm' : (1 : ℝ) ≤ m := by exact_mod_cast hm
  have hmpos : (0 : ℝ) < m := by linarith
  have h : 1 + v / (m : ℝ) = ((m : ℝ) + v) / m := by
    field_simp
  rw [h]
  exact div_nonneg (by linarith) hmpos.le

theorem one_add_valorEA_nonneg (v : ℝ) (k : String) {m : ℕ}
    (hm : 1 ≤ m) (hv : -1 ≤ v) : 0 ≤ 1 + valorEA v k m := by
  unfold valorEA
  split
  · have h1 : (0 : ℝ) ≤ 1 + v := by linarith
    have := pow_nonneg h1 m
    linarith
  · have := pow_nonneg (one_add_div_nonneg hm hv) m
    linarith

theorem valorDesdeEA_valorEA (v : ℝ) (k : String) {m : ℕ}
    (hm : 1 ≤ m) (hv : -1 ≤ v) : valorDesdeEA (valorEA v k m) k m = v := by
  have hm0 : (m : ℝ) ≠ 0 := Nat.cast_ne_zero.mpr (by omega)
  by_cases hk : k = "E"
  · simp only [valorEA, valorDesdeEA, if_pos hk]
    have h1 : (0 : ℝ) ≤ 1 + v := by linarith
    rw [show (1 + ((1 + v) ^ m - 1)) = (1 + v) ^ m by ring,
      npow_rpow_inv h1 hm]
    ring
  · simp only [valorEA, valorDesdeEA, if_neg hk]
    rw [show (1 + ((1 + v / m) ^ m - 1)) = (1 + v / m) ^ m by ring,
      npow_rpow_inv (one_add_div_nonneg hm hv) hm]
    field_simp

theorem valorEA_valorDesdeEA (ea : ℝ) (k : String) {m : ℕ}
    (hm : 1 ≤ m) (hea : 0 ≤ 1 + ea) :
    valorEA (valorDesdeEA ea k m) k m = ea := by
  have hm0 : (m : ℝ) ≠ 0 := Nat.cast_ne_zero.mpr (by omega)
  by_cases hk : k = "E"
  · simp only [valorEA, valorDesdeEA, if_pos hk]
    rw [show (1 + ((1 + ea) ^ ((1 : ℝ) / m) - 1)) = (1 + ea) ^ ((1 : ℝ) / m)
        by ring, rpow_inv_npow hea hm]
    ring
  · simp only [valorEA, valorDesdeEA, if_neg hk]
    have h : 1 + (m : ℝ) * ((1 + ea) ^ ((1 : ℝ) / m) - 1) / m
        = (1 + ea) ^ ((1 : ℝ) / m) := by
      field_simp
    rw [h, rpow_inv_npow hea hm]
    ring

/-! ## ASCII case-mapping lemmas -/

theorem toNat_ofNat_valid {n : Nat} (h : n < 55296) : (Char.ofNat n).toNat = n := by
  rw [Char.ofNat, dif_pos (Or.inl h)]
  rfl

theorem char_toNat_inj {c d : Char} (h : c.toNat = d.toNat) : c = d :=
  Char.ext (UInt32.ext h)

theorem char_upper_lower_eq {c : Char} {n : Nat} (h97 : 97 ≤ n) (h122 : n ≤ 122)
    (h : (Char.toUpper c).toLower = Char.ofNat n) :
    Char.toUpper c = Char.ofNat (n - 32) := by
  have hvn : (Char.ofNat n).toNat = n := toNat_ofNat_valid (by omega)
  by_cases hc : 97 ≤ c.toNat ∧ c.toNat ≤ 122
  case pos =>
    have hsub : (Char.ofNat (c.toNat - 32)).toNat = c.toNat - 32 :=
      toNat_ofNat_valid (by omega)
    have hup : Char.toUpper c = Char.ofNat (c.toNat - 32) := by
      simp only [Char.toUpper]
      exact if_pos ⟨hc.1, hc.2⟩
    rw [hup] at h ⊢
    have hlo : (Char.ofNat (c.toNat - 32)).toLower
        = Char.ofNat (c.toNat - 32 + 32) := by
      simp only [Char.toLower, hsub]
      exact if_pos ⟨by omega, by omega⟩
    rw [hlo] at h
    have heq : c.toNat - 32 + 32 = c.toNat := by omega
    rw [heq] at h
    have hcn : c.toNat = n := by
      have h2 := congrArg Char.toNat h
      rwa [toNat_ofNat_valid (by omega : c.toNat < 55296), hvn] at h2
    rw [hcn]
  case neg =>
    have hup : Char.toUpper c = c := by
      simp only [Char.toUpper]
      exact if_neg hc
    rw [hup] at h ⊢
    by_cases hd : 65 ≤ c.toNat ∧ c.toNat ≤ 90
    case pos =>
      have hadd : (Char.ofNat (c.toNat + 32)).toNat = c.toNat + 32 :=
        toNat_ofNat_valid (by omega)
      have hlo : Char.toLower c = Char.ofNat (c.toNat + 32) := by
        simp only [Char.toLower]
        exact if_pos ⟨hd.1, hd.2⟩
      rw [hlo] at h
      have hcn : c.toNat + 32 = n := by
        have h2 := congrArg Char.toNat h
        rwa [hadd, hvn] at h2
      apply char_toNat_inj
      rw [toNat_ofNat_valid (by omega : n - 32 < 55296)]
      omega
    case neg =>
      have hlo : Char.toLower c = c := by
        simp only [Char.toLower]
        exact if_neg hd
      rw [hlo] at h
      exfalso
      have h2 := congrArg Char.toNat h
      rw [hvn] at h2
      exact hc ⟨by omega, by omega⟩

theorem map_upper_of_lower_eq : ∀ (l m : List Char),
    (∀ d ∈ m, 97 ≤ d.toNat ∧ d.toNat ≤ 122) →
    (l.map Char.toUpper).map Char.toLower = m →
    l.map Char.toUpper = m.map (fun d => Char.ofNat (d.toNat - 32)) := by
  intro l
  induction l with
  | nil =>
    intro m _ h
    simp only [List.map_nil] at h
    subst h
    simp
  | cons c l ih =>
    intro m hm h
    cases m with
    | nil => simp at h
    | cons d m' =>
      simp only [List.map_cons, List.cons.injEq] at h
      have hd := hm d (List.mem_cons_self _ _)
      have h1 := char_upper_lower_eq hd.1 hd.2 (h.1.trans (Char.ofNat_toNat d).symm)
      simp only [List.map_cons, List.cons.injEq]
      exact ⟨h1, ih m' (fun x hx => hm x (List.mem_cons_of_mem _ hx)) h.2⟩

theorem pyUpper_fix {s t u : String}
    (ht : ∀ d ∈ t.data, 97 ≤ d.toNat ∧ d.toNat ≤ 122)
    (hu : u.data = t.data.map (fun d => Char.ofNat (d.toNat - 32)))
    (h : pyLower (pyUpper s) = t) : pyUpper s = u := by
  apply String.ext
  have hdata : (s.data.map Char.toUpper).map Char.toLower = t.data := by
    have h2 := congrArg String.data h
    simpa [pyLower, pyUpper] using h2
  have h3 := map_upper_of_lower_eq s.data t.data ht hdata
  rw [show (pyUpper s).data = s.data.map Char.toUpper from rfl, h3, hu]

theorem parse_codigo_eq_spec (s : String) : parse_codigo s = parse_codigo_spec s := by
  simp only [parse_codigo, parse_codigo_spec]
  by_cases h1 : pyLower (pyUpper (pyStrip s)) = "esm"
  · rw [if_pos h1, @pyUpper_fix (pyStrip s) "esm" "ESM" (by decide) (by decide) h1]
    rw [if_neg (by decide : ¬ pyLower "ESM" = "nsm")]
  · rw [if_neg h1]
    by_cases h2 : pyLower (pyUpper (pyStrip s)) = "nsm"
    · rw [if_pos h2, @pyUpper_fix (pyStrip s) "nsm" "NSM" (by decide) (by decide) h2]
    · rw [if_neg h2]

theorem convertir_ok {v : ℝ} {de a kd pd ka pa : String} {md ma : ℕ}
    (hd : parse_codigo de = .ok (kd, pd)) (ha : parse_codigo a = .ok (ka, pa))
    (hmd : buscar pd PERIODOS = some md) (hma : buscar pa PERIODOS = some ma) :
    convertir v de a = .ok (valorDesdeEA (valorEA v kd md) ka ma) := by
  unfold convertir
  rw [hd, ha]
  unfold a_EA desde_EA
  simp [hmd, hma]

/-! ## Claim theorems -/

/-- C1: for every value `v` and every pair of valid rate codes,
`convertir v de a` equals the two-stage reference computation: first
`EA = (1+v)^m - 1` (Effective source) or `EA = (1+v/m)^m - 1` (Nominal
source) with `m` the source period's frequency, then `(1+EA)^(1/n) - 1`
(Effective target) or `n * ((1+EA)^(1/n) - 1)` (Nominal target) with `n`
the target period's frequency. -/
theorem conversion_matches_two_stage_formulas (v : ℝ) (de a kd pd ka pa : String)
    (hd : parse_codigo de = .ok (kd, pd)) (ha : parse_codigo a = .ok (ka, pa)) :
    ∃ m n : ℕ, buscar pd PERIODOS = some m ∧ buscar pa PERIODOS = some n ∧
      convertir v de a = .ok
        ((fun ea : ℝ => if ka = "E" then (1 + ea) ^ ((1 : ℝ) / (n : ℝ)) - 1
            else (n : ℝ) * ((1 + ea) ^ ((1 : ℝ) / (n : ℝ)) - 1))
          (if kd = "E" then (1 + v) ^ m - 1 else (1 + v / (m : ℝ)) ^ m - 1)) := by
  obtain ⟨m, hmd, hm1⟩ := parse_codigo_freq hd
  obtain ⟨n, hma, hn1⟩ := parse_codigo_freq ha
  exact ⟨m, n, hmd, hma, convertir_ok hd ha hmd hma⟩

/-- Witness for C1 at `v = 0.24`, source `"NM"`, target `"EA"`. -/
theorem conversion_matches_two_stage_formulas_witness :
    parse_codigo "NM" = .ok ("N", "M") ∧ parse_codigo "EA" = .ok ("E", "A") ∧
    (∃ m n : ℕ, buscar "M" PERIODOS = some m ∧ buscar "A" PERIODOS = some n ∧
      convertir 0.24 "NM" "EA" = .ok
        ((fun ea : ℝ => if "E" = "E" then (1 + ea) ^ ((1 : ℝ) / (n : ℝ)) - 1
            else (n : ℝ) * ((1 + ea) ^ ((1 : ℝ) / (n : ℝ)) - 1))
          (if "N" = "E" then ((1 : ℝ) + 0.24) ^ m - 1
            else (1 + (0.24 : ℝ) / (m : ℝ)) ^ m - 1))) :=
  ⟨by decide, by decide,
    conversion_matches_two_stage_formulas 0.24 "NM" "EA" "N" "M" "E" "A"
      (by decide) (by decide)⟩

/-- C2 counterexample: the round trip is not within `1e-9` of the input
for the valid rate value `v = -2` with codes `X = "ES"`, `Y = "EA"`:
both conversions return `0`, which is `2` away from `-2`. -/
theorem roundtrip_counterexample_below_neg_one :
    convertir (-2 : ℝ) "ES" "EA" = .ok 0 ∧
    convertir (0 : ℝ) "EA" "ES" = .ok 0 ∧
    ¬ (|(0 : ℝ) - (-2)| ≤ 1e-9) := by
  have h1 : parse_codigo "ES" = .ok ("E", "S") := by decide
  have h2 : parse_codigo "EA" = .ok ("E", "A") := by decide
  have h3 : buscar "S" PERIODOS = some 2 := by decide
  have h4 : buscar "A" PERIODOS = some 1 := by decide
  refine ⟨?_, ?_, by rw [abs_sub_comm]; norm_num⟩
  · rw [convertir_ok h1 h2 h3 h4]
    have hea : valorEA (-2 : ℝ) "E" 2 = 0 := by
      simp only [valorEA, if_pos rfl]
      norm_num
    rw [hea]
    simp [valorDesdeEA, Real.one_rpow]
  · rw [convertir_ok h2 h1 h4 h3]
    have hea : valorEA (0 : ℝ) "E" 1 = 0 := by
      simp only [valorEA, if_pos rfl]
      norm_num
    rw [hea]
    simp [valorDesdeEA, Real.one_rpow]

/-- C2 amended: for every rate value `v ≥ -1` (at least `-100 %`) and
valid codes `X`, `Y`, the round trip `convert(convert(v,X,Y),Y,X)` is
within `1e-9` of `v` (in the real-number model it is exact). -/
theorem roundtrip_inverse (v : ℝ) (x y kx px ky py : String) (hv : -1 ≤ v)
    (hx : parse_codigo x = .ok (kx, px)) (hy : parse_codigo y = .ok (ky, py)) :
    ∃ r s : ℝ, convertir v x y = .ok r ∧ convertir r y x = .ok s ∧
      |s - v| ≤ 1e-9 := by
  obtain ⟨m, hmx, hm1⟩ := parse_codigo_freq hx
  obtain ⟨n, hmy, hn1⟩ := parse_codigo_freq hy
  refine ⟨valorDesdeEA (valorEA v kx m) ky n, v,
    convertir_ok hx hy hmx hmy, ?_, by norm_num⟩
  rw [convertir_ok hy hx hmy hmx,
    valorEA_valorDesdeEA _ ky hn1 (one_add_valorEA_nonneg v kx hm1 hv),
    valorDesdeEA_valorEA v kx hm1 hv]

/-- Witness for C2 (amended) at `v = 0.24`, `X = "NM"`, `Y = "EA"`. -/
theorem roundtrip_inverse_witness :
    (-1 : ℝ) ≤ 0.24 ∧ parse_codigo "NM" = .ok ("N", "M") ∧
    parse_codigo "EA" = .ok ("E", "A") ∧
    (∃ r s : ℝ, convertir 0.24 "NM" "EA" = .ok r ∧
      convertir r "EA" "NM" = .ok s ∧ |s - 0.24| ≤ 1e-9) :=
  ⟨by norm_num, by decide, by decide,
    roundtrip_inverse 0.24 "NM" "EA" "N" "M" "E" "A" (by norm_num)
      (by decide) (by decide)⟩

/-- C3 counterexample: `convert(-2, "ES", "ES")` returns `0`, not `-2`,
although `-2` is a valid (unrestricted) rate value and `"ES"` a valid
code; the even natural power erases the sign of `1 + v`. -/
theorem identity_counterexample_below_neg_one :
    convertir (-2 : ℝ) "ES" "ES" = .ok 0 ∧ (0 : ℝ) ≠ -2 := by
  constructor
  · have h1 : parse_codigo "ES" = .ok ("E", "S") := by decide
    have h2 : buscar "S" PERIODOS = some 2 := by decide
    rw [convertir_ok h1 h1 h2 h2]
    have hea : valorEA (-2 : ℝ) "E" 2 = 0 := by
      simp only [valorEA, if_pos rfl]
      norm_num
    rw [hea]
    simp [valorDesdeEA, Real.one_rpow]
  · norm_num

/-- C3 amended: for every rate value `v ≥ -1` and every valid code `X`,
`convert(v, X, X)` equals `v` exactly (in the real-number model of float
arithmetic). -/
theorem identity_exact (v : ℝ) (x k p : String) (hv : -1 ≤ v)
    (hx : parse_codigo x = .ok (k, p)) : convertir v x x = .ok v := by
  obtain ⟨m, hm, hm1⟩ := parse_codigo_freq hx
  rw [convertir_ok hx hx hm hm, valorDesdeEA_valorEA v k hm1 hv]

/-- Witness for C3 (amended) at `v = 0.1`, `X = "EM"`. -/
theorem identity_exact_witness :
    (-1 : ℝ) ≤ 0.1 ∧ parse_codigo "EM" = .ok ("E", "M") ∧
    convertir (0.1 : ℝ) "EM" "EM" = .ok 0.1 :=
  ⟨by norm_num, by decide,
    identity_exact 0.1 "EM" "E" "M" (by norm_num) (by decide)⟩

/-- C9: every taxonomy entry's period is a key of `PERIODOS` with a
frequency of at least 1; consequently the `PERIODOS` lookups inside
`a_EA` and `desde_EA` always succeed for codes accepted by
`parse_codigo` — the `KeyError` branch is unreachable there. -/
theorem period_lookups_total :
    (∀ kv ∈ VALIDOS, ∃ m : ℕ, buscar kv.2.2 PERIODOS = some m ∧ 1 ≤ m)
    ∧ ∀ s k p, parse_codigo s = .ok (k, p) →
        (∀ v : ℝ, (a_EA ⟨v, k, p⟩).isSome = true)
        ∧ ∀ ea : ℝ, ∀ kt : String, (desde_EA ea kt p).isSome = true := by
  refine ⟨validos_freq, fun s k p h => ?_⟩
  obtain ⟨m, hm, _⟩ := parse_codigo_freq h
  exact ⟨fun v => by simp [a_EA, hm], fun ea kt => by simp [desde_EA, hm]⟩

/-- Witness for C9 at the taxonomy entry and resolved code `"EA"`. -/
theorem period_lookups_total_witness :
    (("EA", ("E", "A")) ∈ VALIDOS ∧
      ∃ m : ℕ, buscar "A" PERIODOS = some m ∧ 1 ≤ m)
    ∧ (parse_codigo "EA" = .ok ("E", "A") ∧
        (∀ v : ℝ, (a_EA ⟨v, "E", "A"⟩).isSome = true)
        ∧ ∀ ea : ℝ, ∀ kt : String, (desde_EA ea kt "A").isSome = true) :=
  ⟨⟨by decide, period_lookups_total.1 ("EA", ("E", "A")) (by decide)⟩,
    ⟨by decide, period_lookups_total.2 "EA" "E" "A" (by decide)⟩⟩

/-- C10: the explicit `esm` / `nsm` special cases in `parse_codigo` are
redundant — for every input the function agrees with the simpler variant
that only trims, uppercases and looks the token up, because ASCII
uppercasing already sends `"esm"` to `"ESM"` and `"nsm"` to `"NSM"`. -/
theorem special_case_redundant : ∀ s : String, parse_codigo s = parse_codigo_spec s :=
  parse_codigo_eq_spec

/-- C4: `parse_codigo` fails exactly when the trimmed, uppercased token is
not a taxonomy key; the error carries the original (untrimmed) input and
the sorted list of all 16 valid codes; and `convertir` propagates the
error whenever the source code is unrecognized (for every source, target
and value) or the source is accepted and the target code is unrecognized
— in particular `convertir v "XX" "EA"` fails with it. -/
theorem unrecognized_code_error :
    (∀ s : String,
      ((∃ kp, parse_codigo s = .ok kp) ↔
        (buscar (pyUpper (pyStrip s)) VALIDOS).isSome = true)
      ∧ ∀ e, parse_codigo s = .error e → e.entrada = s ∧
          e.validos = ["EA", "EB", "ED", "EM", "EQ", "ES", "ESM", "ET",
                       "NA", "NB", "ND", "NM", "NQ", "NS", "NSM", "NT"])
    ∧ (∀ (v : ℝ) (de a : String) (e : CodeError),
        parse_codigo de = .error e → convertir v de a = .error (.codigo e))
    ∧ (∀ (v : ℝ) (de a : String) (kp : String × String) (e : CodeError),
        parse_codigo de = .ok kp → parse_codigo a = .error e →
          convertir v de a = .error (.codigo e))
    ∧ ∀ v : ℝ, convertir v "XX" "EA" =
        .error (.codigo ⟨"XX",
          ["EA", "EB", "ED", "EM", "EQ", "ES", "ESM", "ET",
           "NA", "NB", "ND", "NM", "NQ", "NS", "NSM", "NT"]⟩) := by
  refine ⟨?_, ?_, ?_, ?_⟩
  · intro s
    rw [parse_codigo_eq_spec s]
    simp only [parse_codigo_spec]
    constructor
    · cases hb : buscar (pyUpper (pyStrip s)) VALIDOS with
      | none => simp [hb]
      | some kp => simp [hb]
    · intro e he
      cases hb : buscar (pyUpper (pyStrip s)) VALIDOS with
      | none =>
        rw [hb] at he
        cases he
        refine ⟨rfl, ?_⟩
        show sortedCodes = _
        decide
      | some kp =>
        rw [hb] at he
        exact absurd he (by simp)
  · intro v de a e he
    simp only [convertir]
    rw [he]
  · intro v de a kp e hd ha
    obtain ⟨kd, pd⟩ := kp
    simp only [convertir]
    rw [hd, ha]
  · intro v
    have hx : parse_codigo "XX" =
        .error ⟨"XX", ["EA", "EB", "ED", "EM", "EQ", "ES", "ESM", "ET",
                       "NA", "NB", "ND", "NM", "NQ", "NS", "NSM", "NT"]⟩ := by
      decide
    simp only [convertir]
    rw [hx]

/-- Witness for C4 at the unrecognized source `"XX"` (with target `"EA"`)
and the unrecognized target `"YY"` (with accepted source `"EA"`). -/
theorem unrecognized_code_error_witness :
    parse_codigo "XX" =
      .error ⟨"XX", ["EA", "EB", "ED", "EM", "EQ", "ES", "ESM", "ET",
                     "NA", "NB", "ND", "NM", "NQ", "NS", "NSM", "NT"]⟩ ∧
    ((⟨"XX", ["EA", "EB", "ED", "EM", "EQ", "ES", "ESM", "ET",
              "NA", "NB", "ND", "NM", "NQ", "NS", "NSM", "NT"]⟩ :
        CodeError).entrada = "XX" ∧
      (⟨"XX", ["EA", "EB", "ED", "EM", "EQ", "ES", "ESM", "ET",
               "NA", "NB", "ND", "NM", "NQ", "NS", "NSM", "NT"]⟩ :
        CodeError).validos =
        ["EA", "EB", "ED", "EM", "EQ", "ES", "ESM", "ET",
         "NA", "NB", "ND", "NM", "NQ", "NS", "NSM", "NT"]) ∧
    convertir 0.1 "XX" "EA" =
      .error (.codigo ⟨"XX", ["EA", "EB", "ED", "EM", "EQ", "ES", "ESM", "ET",
                              "NA", "NB", "ND", "NM", "NQ", "NS", "NSM", "NT"]⟩) ∧
    parse_codigo "EA" = .ok ("E", "A") ∧
    parse_codigo "YY" =
      .error ⟨"YY", ["EA", "EB", "ED", "EM", "EQ", "ES", "ESM", "ET",
                     "NA", "NB", "ND", "NM", "NQ", "NS", "NSM", "NT"]⟩ ∧
    convertir 0.1 "EA" "YY" =
      .error (.codigo ⟨"YY", ["EA", "EB", "ED", "EM", "EQ", "ES", "ESM", "ET",
                              "NA", "NB", "ND", "NM", "NQ", "NS", "NSM", "NT"]⟩) :=
  ⟨by decide,
    (unrecognized_code_error.1 "XX").2 _ (by decide),
    unrecognized_code_error.2.1 0.1 "XX" "EA"
      ⟨"XX", ["EA", "EB", "ED", "EM", "EQ", "ES", "ESM", "ET",
              "NA", "NB", "ND", "NM", "NQ", "NS", "NSM", "NT"]⟩ (by decide),
    by decide,
    by decide,
    unrecognized_code_error.2.2.1 0.1 "EA" "YY" ("E", "A")
      ⟨"YY", ["EA", "EB", "ED", "EM", "EQ", "ES", "ESM", "ET",
              "NA", "NB", "ND", "NM", "NQ", "NS", "NSM", "NT"]⟩
      (by decide) (by decide)⟩

/-- C5: `parse_tasa` trims, replaces commas with periods, then strips a
trailing `%` and divides the parsed float by 100, else parses the whole
string; `"24%"` and `"0,24"` both parse to `0.24` and `"abc"` fails. -/
theorem parse_tasa_spec_conformance :
    (∀ s : String, parse_tasa s =
      (let t := pyReplaceComma (pyStrip s)
       if t.data.getLast? = some '%' then
         match parseFloat t.data.dropLast with
         | some x => .ok x.div100
         | none => .error ⟨t⟩
       else
         match parseFloat t.data with
         | some x => .ok x
         | none => .error ⟨t⟩))
    ∧ parse_tasa "24%" = .ok (.finite 0.24)
    ∧ parse_tasa "0,24" = .ok (.finite 0.24)
    ∧ ∃ e, parse_tasa "abc" = .error e :=
  ⟨fun _ => rfl, by with_unfolding_all decide, by with_unfolding_all decide,
    ⟨⟨"abc"⟩, by decide⟩⟩

/-- C6 counterexample: on input `"a,b"` parsing fails and the error
carries the normalized text `"a.b"`, not the original input `"a,b"`. -/
theorem rate_error_text_counterexample :
    parse_tasa "a,b" = .error ⟨"a.b"⟩ ∧ ("a.b" : String) ≠ "a,b" :=
  ⟨by decide, by decide⟩

/-- C6 amended: the error raised by `parse_tasa` carries the rebound,
normalized input (trimmed, commas replaced by periods) — the variable `s`
is reassigned before the `try` block — rather than the original text. -/
theorem rate_error_carries_normalized_text (s : String) (e : RateError)
    (h : parse_tasa s = .error e) : e.entrada = normTasa s := by
  simp only [parse_tasa] at h
  split at h
  · split at h
    · exact absurd h (by simp)
    · cases h
      rfl
  · split at h
    · exact absurd h (by simp)
    · cases h
      rfl

/-- Witness for C6 (amended) at the failing input `"abc"`. -/
theorem rate_error_carries_normalized_text_witness :
    parse_tasa "abc" = .error ⟨"abc"⟩ ∧
    (⟨"abc"⟩ : RateError).entrada = normTasa "abc" :=
  ⟨by decide, rate_error_carries_normalized_text "abc" ⟨"abc"⟩ (by decide)⟩

/-- Any value produced by `parseFloat` is finite unless the literal (after
stripping and an optional sign) spells `inf`, `infinity` or `nan`. -/
theorem parseFloat_finite {l : List Char} {y : PyFloat}
    (h : parseFloat l = some y) :
    y.isFinite = true ∨ specialTok l = true := by
  simp only [parseFloat] at h
  split at h
  · right
    rename_i hc
    simp only [specialTok, Bool.or_eq_true, decide_eq_true_eq] at hc ⊢
    tauto
  · split at h
    · right
      rename_i hc
      simp only [specialTok, Bool.or_eq_true, decide_eq_true_eq] at hc ⊢
      tauto
    · split at h
      · cases h
        left
        rfl
      · exact absurd h (by simp)

/-- C7 counterexample: `parse_tasa "inf"` succeeds with an infinite value
(Python's `float("inf")` accepts the literal), so parsing can succeed
with a non-finite value. -/
theorem parse_inf_counterexample :
    parse_tasa "inf" = .ok .inf ∧ PyFloat.inf.isFinite = false :=
  ⟨by decide, rfl⟩

/-- C7 amended: every successfully parsed rate value is finite unless the
text handed to `float()` explicitly spells an infinity or NaN literal
(`inf`, `infinity`, `nan`, case-insensitive, optional sign). -/
theorem parsed_values_finite_unless_special (s : String) (x : PyFloat)
    (h : parse_tasa s = .ok x) :
    x.isFinite = true ∨ specialTok (tasaBody s) = true := by
  simp only [parse_tasa] at h
  simp only [tasaBody]
  by_cases hp : (normTasa s).data.getLast? = some '%'
  · rw [if_pos hp] at h ⊢
    split at h
    · rename_i y hy
      cases h
      rcases parseFloat_finite hy with h1 | h1
      · left
        cases y <;> simp_all [PyFloat.div100, PyFloat.isFinite]
      · right
        exact h1
    · exact absurd h (by simp)
  · rw [if_neg hp] at h ⊢
    split at h
    · rename_i y hy
      cases h
      exact parseFloat_finite hy
    · exact absurd h (by simp)

/-- Witness for C7 (amended) at the successfully parsed input `"0.24"`. -/
theorem parsed_values_finite_unless_special_witness :
    parse_tasa "0.24" = .ok (.finite 0.24) ∧
    ((PyFloat.finite 0.24).isFinite = true ∨
      specialTok (tasaBody "0.24") = true) :=
  ⟨by with_unfolding_all decide,
    parsed_values_finite_unless_special "0.24" (.finite 0.24)
      (by with_unfolding_all decide)⟩

/-- C8: `convert(0.24, "NM", "EA")` equals `(1 + 0.24/12)^12 - 1`, which
is within `1e-8` of `0.26824179`, and formatting it as a percentage with
6 decimals yields `"26.824179%"`. -/
theorem known_value_nominal_monthly :
    convertir 0.24 "NM" "EA" = .ok ((1 + 0.24 / 12) ^ (12 : ℕ) - 1 : ℝ) ∧
    |((1 + 0.24 / 12) ^ (12 : ℕ) - 1 : ℝ) - 0.26824179| < 1e-8 ∧
    a_porcentaje ((1 + 0.24 / 12) ^ (12 : ℕ) - 1 : ℝ) = "26.824179%" := by
  have h1 : parse_codigo "NM" = .ok ("N", "M") := by decide
  have h2 : parse_codigo "EA" = .ok ("E", "A") := by decide
  have h3 : buscar "M" PERIODOS = some 12 := by decide
  have h4 : buscar "A" PERIODOS = some 1 := by decide
  have hva : valorEA (0.24 : ℝ) "N" 12 = (1 + 0.24 / 12) ^ (12 : ℕ) - 1 := by
    simp only [valorEA, if_neg (by decide : ¬ ("N" : String) = "E")]
    norm_num
  have hvd : ∀ y : ℝ, valorDesdeEA y "E" 1 = y := by
    intro y
    simp only [valorDesdeEA, if_pos rfl]
    norm_num [Real.rpow_one]
  refine ⟨?_, ?_, ?_⟩
  · rw [convertir_ok h1 h2 h3 h4, hva, hvd]
  · rw [abs_lt]
    constructor <;> norm_num
  · have hcast : (((1 + 0.24 / 12) ^ (12 : ℕ) - 1 : ℝ) * 100) * 1000000
        = ((((1 + 0.24 / 12) ^ (12 : ℕ) - 1 : ℚ) * 100) * 1000000 : ℚ) := by
      push_cast
      norm_num
    have hround : round ((((1 + 0.24 / 12) ^ (12 : ℕ) - 1 : ℝ) * 100) * 1000000)
        = 26824179 := by
      rw [hcast, Rat.round_cast]
      with_unfolding_all decide
    simp only [a_porcentaje, fixed6]
    rw [hround]
    decide

end Conversor
